import Mathlib

/-!
# Verification of the text cursor / selection animation engine

A shallow embedding of `lib/rust/ensogl/component/text/src/component/selection.rs`:
the shape's blinking-alpha computation, the FRP network wiring of the `Selection`
component, and the `flip_sides` operation. `f32` arithmetic is modelled exactly
over `ℚ`; GLSL built-ins (`mod`, `smoothstep`, `mix`, `clamp`) are given their
GLSL definitions. The FRP/Animation substrate (`enso_frp`, `ensogl_core::Animation`)
is not part of the sampled sources; its semantics (synchronous push propagation,
`set_target` updates only the target, `skip` snaps value to target and emits a
value event) is modelled from the specification, §4.1–§4.2.
-/

namespace EnsoSelection

/-! ## Constants (selection.rs lines 25–36) -/

def CURSOR_PADDING : ℚ := 4.0

def CURSOR_WIDTH : ℚ := 2.0

def CURSOR_ALPHA : ℚ := 0.8

def CURSORS_SPACING : ℚ := 1.0

def SELECTION_ALPHA : ℚ := 0.3

def SELECTION_CORNER_RADIUS : ℚ := 2.0

def BLINK_SLOPE_IN_DURATION : ℚ := 200.0

def BLINK_SLOPE_OUT_DURATION : ℚ := 200.0

def BLINK_ON_DURATION : ℚ := 300.0

def BLINK_OFF_DURATION : ℚ := 300.0

def BLINK_PERIOD : ℚ :=
  BLINK_SLOPE_IN_DURATION + BLINK_SLOPE_OUT_DURATION + BLINK_ON_DURATION + BLINK_OFF_DURATION

/-! ## GLSL built-ins used by the shape -/

/-- GLSL `clamp(x, 0.0, 1.0)`. -/
def clamp01 (x : ℚ) : ℚ := min (max x 0) 1

/-- GLSL `smoothstep(edge0, edge1, x)`:
`t = clamp((x - edge0) / (edge1 - edge0), 0, 1); t * t * (3 - 2 * t)`. -/
def smoothstep (edge0 edge1 x : ℚ) : ℚ :=
  let t := clamp01 ((x - edge0) / (edge1 - edge0))
  t * t * (3 - 2 * t)

/-- GLSL `mod(x, y) = x - y * floor(x / y)`. -/
def glslMod (x y : ℚ) : ℚ := x - y * (⌊x / y⌋ : ℤ)

/-- GLSL `mix(x, y, a) = x * (1 - a) + y * a`. -/
def glslMix (x y a : ℚ) : ℚ := x * (1 - a) + y * a

/-! ## The blinking alpha (selection.rs, `shape`, lines 73–82) -/

/-- The blink waveform as a function of the phase `sampler = time % BLINK_PERIOD`
(lines 76–81 of the shape body):
`slope_out = smoothstep(BLINK_ON_DURATION, on_time, sampler)`,
`slope_in = smoothstep(off_time, BLINK_PERIOD, sampler)`,
`blinking_alpha = (1 - slope_out + slope_in) * CURSOR_ALPHA`. -/
def blinkShape (sampler : ℚ) : ℚ :=
  let on_time := BLINK_ON_DURATION + BLINK_SLOPE_OUT_DURATION
  let off_time := on_time + BLINK_OFF_DURATION
  let slope_out := smoothstep BLINK_ON_DURATION on_time sampler
  let slope_in := smoothstep off_time BLINK_PERIOD sampler
  (1 - slope_out + slope_in) * CURSOR_ALPHA

/-- `blinking_alpha` as a function of elapsed time `time - start_time`
(line 75 computes the shift, line 78 the residual `sampler`). -/
def blinkAlphaOfElapsed (t : ℚ) : ℚ := blinkShape (glslMod t BLINK_PERIOD)

/-- `blinking_alpha` as a function of the absolute clock `input_time` and the
`start_time` shape parameter. -/
def blinkingAlpha (time start_time : ℚ) : ℚ := blinkAlphaOfElapsed (time - start_time)

/-- Line 82: `alpha = not_blinking.mix(blinking_alpha, SELECTION_ALPHA)`,
i.e. GLSL `mix(blinking_alpha, SELECTION_ALPHA, not_blinking)`. -/
def shapeAlpha (time start_time not_blinking : ℚ) : ℚ :=
  glslMix (blinkingAlpha time start_time) SELECTION_ALPHA not_blinking

/-! ## The display-object width update (selection.rs lines 228–240 and line 71) -/

/-- Line 232: `width = max(CURSOR_WIDTH, abs_width - CURSORS_SPACING)` where
`abs_width = width.abs()` is the animated width's absolute value. -/
def renderedWidth (width : ℚ) : ℚ := max CURSOR_WIDTH (|width| - CURSORS_SPACING)

/-- Line 233: `view_width = CURSOR_PADDING * 2.0 + width`; this is the size the
view sprite is given on line 237. -/
def viewWidth (width : ℚ) : ℚ := CURSOR_PADDING * 2 + renderedWidth width

/-- Line 71 of the shape: `rect_width = abs(input_size.x) - 2.0 * CURSOR_PADDING`,
evaluated at `input_size.x = viewWidth width`: the extent of the drawn rectangle. -/
def rectWidth (width : ℚ) : ℚ := |viewWidth width| - 2 * CURSOR_PADDING

/-! ## Helper lemmas for the blink waveform -/

theorem glslMod_zero_left (y : ℚ) : glslMod 0 y = 0 := by
  simp [glslMod]

theorem smoothstep_of_le (edge0 edge1 x : ℚ) (h : (x - edge0) / (edge1 - edge0) ≤ 0) :
    smoothstep edge0 edge1 x = 0 := by
  have ht : clamp01 ((x - edge0) / (edge1 - edge0)) = 0 := by
    unfold clamp01
    rw [max_eq_right h, min_eq_left zero_le_one]
  unfold smoothstep
  rw [ht]
  ring

theorem smoothstep_of_ge (edge0 edge1 x : ℚ) (h : 1 ≤ (x - edge0) / (edge1 - edge0)) :
    smoothstep edge0 edge1 x = 1 := by
  have ht : clamp01 ((x - edge0) / (edge1 - edge0)) = 1 := by
    unfold clamp01
    rw [max_eq_left (le_trans zero_le_one h), min_eq_right h]
  unfold smoothstep
  rw [ht]
  ring

theorem blinkShape_zero : blinkShape 0 = CURSOR_ALPHA := by
  simp only [blinkShape]
  rw [smoothstep_of_le, smoothstep_of_le]
  · ring
  · norm_num [BLINK_SLOPE_IN_DURATION, BLINK_SLOPE_OUT_DURATION, BLINK_ON_DURATION,
      BLINK_OFF_DURATION, BLINK_PERIOD]
  · norm_num [BLINK_ON_DURATION, BLINK_SLOPE_OUT_DURATION]

theorem blinkAlphaOfElapsed_zero : blinkAlphaOfElapsed 0 = CURSOR_ALPHA := by
  rw [blinkAlphaOfElapsed, glslMod_zero_left, blinkShape_zero]

theorem blinkingAlpha_self (t : ℚ) : blinkingAlpha t t = CURSOR_ALPHA := by
  rw [blinkingAlpha, sub_self, blinkAlphaOfElapsed_zero]

theorem BLINK_PERIOD_ne_zero : BLINK_PERIOD ≠ 0 := by
  norm_num [BLINK_PERIOD, BLINK_SLOPE_IN_DURATION, BLINK_SLOPE_OUT_DURATION, BLINK_ON_DURATION,
    BLINK_OFF_DURATION]

theorem blinkShape_period : blinkShape BLINK_PERIOD = CURSOR_ALPHA := by
  simp only [blinkShape]
  rw [smoothstep_of_ge, smoothstep_of_ge]
  · ring
  · norm_num [BLINK_SLOPE_IN_DURATION, BLINK_SLOPE_OUT_DURATION, BLINK_ON_DURATION,
      BLINK_OFF_DURATION, BLINK_PERIOD]
  · norm_num [BLINK_SLOPE_IN_DURATION, BLINK_SLOPE_OUT_DURATION, BLINK_ON_DURATION,
      BLINK_OFF_DURATION, BLINK_PERIOD]

theorem glslMod_period (t : ℚ) :
    glslMod (t + BLINK_PERIOD) BLINK_PERIOD = glslMod t BLINK_PERIOD := by
  rw [glslMod, glslMod, add_div, div_self BLINK_PERIOD_ne_zero, Int.floor_add_one]
  push_cast
  ring

theorem glslMod_eq_fract (t : ℚ) :
    glslMod t BLINK_PERIOD = BLINK_PERIOD * Int.fract (t / BLINK_PERIOD) := by
  have h : BLINK_PERIOD * (t / BLINK_PERIOD) = t := by
    rw [mul_comm, div_mul_cancel₀ t BLINK_PERIOD_ne_zero]
  rw [glslMod, Int.fract, mul_sub, h]

theorem continuous_clamp01 : Continuous clamp01 :=
  (continuous_id.max continuous_const).min continuous_const

theorem continuous_smoothstep (e0 e1 : ℚ) : Continuous (smoothstep e0 e1) := by
  have hc : Continuous fun x : ℚ => clamp01 ((x - e0) / (e1 - e0)) :=
    continuous_clamp01.comp ((continuous_id.sub continuous_const).div_const _)
  exact (hc.mul hc).mul (continuous_const.sub (continuous_const.mul hc))

theorem continuous_blinkShape : Continuous blinkShape :=
  ((continuous_const.sub (continuous_smoothstep _ _)).add (continuous_smoothstep _ _)).mul
    continuous_const

/-! ## Claim theorems: the pure waveform -/

/-- C3: for every `start_time`, evaluating the blink function at
`current_time == start_time` (phase 0) yields full opacity: `blinking_alpha`
evaluates exactly to `CURSOR_ALPHA`, so a reset is always visible immediately. -/
theorem blinkingAlpha_at_reset (start_time : ℚ) :
    blinkingAlpha start_time start_time = CURSOR_ALPHA :=
  blinkingAlpha_self start_time

/-- C4: `blinking_alpha`, as a function of elapsed time since `start_time`, is
periodic with period `BLINK_PERIOD = slope_in + slope_out + on_duration +
off_duration`, and is continuous at every point — in particular at every phase
boundary, including across the wrap from `BLINK_PERIOD` back to 0. -/
theorem blinkAlpha_periodic_continuous :
    BLINK_PERIOD = BLINK_SLOPE_IN_DURATION + BLINK_SLOPE_OUT_DURATION
        + BLINK_ON_DURATION + BLINK_OFF_DURATION
    ∧ (∀ t : ℚ, blinkAlphaOfElapsed (t + BLINK_PERIOD) = blinkAlphaOfElapsed t)
    ∧ Continuous blinkAlphaOfElapsed := by
  refine ⟨rfl, fun t => ?_, ?_⟩
  · rw [blinkAlphaOfElapsed, blinkAlphaOfElapsed, glslMod_period]
  · have h1 : blinkAlphaOfElapsed
        = fun t : ℚ =>
            (fun (_ : ℚ) (u : ℚ) => blinkShape (BLINK_PERIOD * u)) t
              (Int.fract (t / BLINK_PERIOD)) := by
      funext t
      rw [blinkAlphaOfElapsed, glslMod_eq_fract]
    rw [h1]
    have hcont : ContinuousOn
        (Function.uncurry fun (_ : ℚ) (u : ℚ) => blinkShape (BLINK_PERIOD * u))
        (Set.univ ×ˢ Set.Icc 0 1) :=
      (continuous_blinkShape.comp (continuous_const.mul continuous_snd)).continuousOn
    have hs : Continuous fun t : ℚ => t / BLINK_PERIOD := continuous_id.div_const _
    have hf : ∀ x : ℚ,
        (fun (_ : ℚ) (u : ℚ) => blinkShape (BLINK_PERIOD * u)) x 0
          = (fun (_ : ℚ) (u : ℚ) => blinkShape (BLINK_PERIOD * u)) x 1 := by
      intro x
      simp only [mul_zero, mul_one]
      rw [blinkShape_zero, blinkShape_period]
    exact ContinuousOn.comp_fract hcont hs hf

/-- C7: for every `not_blinking` weight, the final alpha is the branch-free
linear mix `lerp(blinking_alpha, SELECTION_ALPHA, not_blinking)`: at weight 0 it
equals `blinking_alpha`, at weight 1 it equals `SELECTION_ALPHA`, and
intermediate weights interpolate linearly. -/
theorem alpha_linear_mix (time start_time nb : ℚ) :
    shapeAlpha time start_time nb
      = blinkingAlpha time start_time
        + nb * (SELECTION_ALPHA - blinkingAlpha time start_time)
    ∧ shapeAlpha time start_time 0 = blinkingAlpha time start_time
    ∧ shapeAlpha time start_time 1 = SELECTION_ALPHA := by
  refine ⟨?_, ?_, ?_⟩ <;> (unfold shapeAlpha glslMix) <;> ring

/-- C8: for every animated width value `w`, the rendered extent equals
`max(CURSOR_WIDTH, |w| - CURSORS_SPACING)`, so the drawn rectangle's width never
falls below the minimum cursor width — for `w = 0` and negative `w` included. -/
theorem rendered_extent_min_bound (w : ℚ) :
    rectWidth w = max CURSOR_WIDTH (|w| - CURSORS_SPACING)
    ∧ CURSOR_WIDTH ≤ rectWidth w := by
  have hpos : (0 : ℚ) < viewWidth w := by
    have h2 : CURSOR_WIDTH ≤ renderedWidth w := le_max_left _ _
    have : (0 : ℚ) < CURSOR_PADDING * 2 + CURSOR_WIDTH := by
      unfold CURSOR_PADDING CURSOR_WIDTH
      norm_num
    unfold viewWidth
    linarith
  have habs : |viewWidth w| = viewWidth w := abs_of_pos hpos
  have hrect : rectWidth w = renderedWidth w := by
    unfold rectWidth
    rw [habs]
    unfold viewWidth
    ring
  refine ⟨by rw [hrect]; rfl, ?_⟩
  rw [hrect]
  exact le_max_left _ _

/-! ## The FRP network state of `Selection` (selection.rs lines 161–245)

The network (lines 177–242) wires the `set_width` / `set_position_target` /
`skip_*` inputs to the `width` and `position` `Animation` channels, to the
`not_blinking` channel's target, to the public output samplers, and to the
blink reset (line 223). The observable state consists of each channel's
animated value and target (value and output sampler always agree, since both
are fed from the same streams) and the shape's `start_time` uniform. -/

structure SelState where
  posValue : ℚ × ℚ
  posTarget : ℚ × ℚ
  widthValue : ℚ
  widthTarget : ℚ
  notBlinkingValue : ℚ
  notBlinkingTarget : ℚ
  startTime : ℚ
deriving DecidableEq

/-- The four input endpoints of the FRP interface that the claims exercise
(lines 105–108 of the endpoint definition). -/
inductive Event where
  | setWidth (w : ℚ)
  | setPositionTarget (p : ℚ × ℚ)
  | skipPositionAnimation
  | skipWidthAnimation
deriving DecidableEq

def isSetPositionTarget : Event → Bool
  | Event.setPositionTarget _ => true
  | _ => false

/-- One synchronous propagation pass of the network for one input event, at
clock time `now`.
* `set_width w` (lines 209, 211): `width.target := w` and the `width_target`
  output; the animated value is untouched.
* `set_position_target p` (lines 219, 221, 223): `position.target := p`, the
  `position_target` output, and `reset_blinking_animation_to_current_time`,
  which sets the shape's `start_time` to `timer.now()` (lines 296–299).
* `skip_position_animation` (line 220): the position channel snaps its value to
  its target.
* `skip_width_animation` (line 210): the width channel snaps its value to its
  target and emits it, so the `not_blinking.target` map on `width.value`
  (line 213) refires: `if v == 0.0 { 0.0 } else { 1.0 }`.
Modelled from the spec: the `Animation` channel semantics (`set_target` changes
only the target, `skip` sets value to target, §4.2) and the synchronous push
propagation of `enso_frp` (§4.1) — both live outside the sampled sources. -/
def step (now : ℚ) (s : SelState) : Event → SelState
  | Event.setWidth w => { s with widthTarget := w }
  | Event.setPositionTarget p => { s with posTarget := p, startTime := now }
  | Event.skipPositionAnimation => { s with posValue := s.posTarget }
  | Event.skipWidthAnimation =>
      { s with
        widthValue := s.widthTarget,
        notBlinkingTarget := if s.widthTarget = 0 then 0 else 1 }

/-- Freshly constructed component: every `Animation` channel starts at the
`f32` default `0.0`, and so does the `start_time` shape parameter. -/
def initState : SelState := ⟨(0, 0), (0, 0), 0, 0, 0, 0, 0⟩

/-- `Selection::flip_sides` (lines 247–256), with the event trace it emits.
Each `self.frp.…value()` read observes the state left by the previous calls of
the same sequence, because every call propagates synchronously:
* line 248: `let width = self.frp.width_target.value()` — read once, reused;
* line 249: `set_position_target(position.value() + (width, 0))`;
* line 250: `skip_position_animation()`;
* line 251: `set_position_target(position_target.value() + (width, 0))`;
* line 253: `set_width(-width.value())`;
* line 254: `skip_width_animation()`;
* line 255: `set_width(-width_target.value())`. -/
def flipSides (now : ℚ) (s : SelState) : SelState × List Event :=
  let width := s.widthTarget
  let e1 := Event.setPositionTarget (s.posValue + (width, 0))
  let s1 := step now s e1
  let e2 := Event.skipPositionAnimation
  let s2 := step now s1 e2
  let e3 := Event.setPositionTarget (s2.posTarget + (width, 0))
  let s3 := step now s2 e3
  let e4 := Event.setWidth (-s3.widthValue)
  let s4 := step now s3 e4
  let e5 := Event.skipWidthAnimation
  let s5 := step now s4 e5
  let e6 := Event.setWidth (-s5.widthTarget)
  let s6 := step now s5 e6
  (s6, [e1, e2, e3, e4, e5, e6])

/-- Modelled from the spec: the four-step `flip_sides` protocol exactly as the
claim states it, step (1) reading the current *animated* width `w` (and the
animated position `p`), the remaining calls as listed. Used only to compare
the claimed protocol with the code's `flipSides`. -/
def flipSidesClaimed (now : ℚ) (s : SelState) : SelState × List Event :=
  let w := s.widthValue
  let e1 := Event.setPositionTarget (s.posValue + (w, 0))
  let s1 := step now s e1
  let e2 := Event.skipPositionAnimation
  let s2 := step now s1 e2
  let e3 := Event.setPositionTarget (s2.posTarget + (w, 0))
  let s3 := step now s2 e3
  let e4 := Event.setWidth (-s3.widthValue)
  let s4 := step now s3 e4
  let e5 := Event.skipWidthAnimation
  let s5 := step now s4 e5
  let e6 := Event.setWidth (-s5.widthTarget)
  let s6 := step now s5 e6
  (s6, [e1, e2, e3, e4, e5, e6])

/-- The absolute on-screen interval `[x, x + width]` spanned by the rendered
rectangle, normalized as `(left, right)`: per the display update (lines
228–239) the view is centred at `x + width/2`, so it spans from
`min x (x + width)` to `max x (x + width)` (up to the constant
padding/min-width adjustment of `renderedWidth`). Read from the animated
signals `position.value.x` and `width.value`. -/
def absoluteSpan (s : SelState) : ℚ × ℚ :=
  (min s.posValue.1 (s.posValue.1 + s.widthValue),
   max s.posValue.1 (s.posValue.1 + s.widthValue))

/-! ## The attached-glyph output (selection.rs lines 193–204) -/

/-- A glyph as read by the `rhs_last_glyph` computation: its local `x` position
and its horizontal advance. -/
structure Glyph where
  positionX : ℚ
  xAdvance : ℚ
deriving DecidableEq

/-- The `rhs_last_glyph` map (lines 195–203): resolve the last weak reference
of the attached-glyph list (`glyphs.last().and_then(|g| g.upgrade())`, where an
upgrade result is modelled as `Option Glyph`); on success the result is
`origin_x + glyph_right_x` with `glyph_right_x = glyph.position().x +
glyph.x_advance` and `origin_x = display_object.position().x +
right_side.position().x`; otherwise `0.0`. -/
def rhsLastGlyph (displayObjectX rightSideX : ℚ) (glyphs : List (Option Glyph)) : ℚ :=
  match glyphs.getLast?.bind (fun g => g) with
  | some glyph => (displayObjectX + rightSideX) + (glyph.positionX + glyph.xAdvance)
  | none => 0

/-! ## Helper: the net effect of one `flip_sides` call -/

theorem flipSides_run (now : ℚ) (s : SelState) :
    (flipSides now s).1 =
      { posValue := s.posValue + (s.widthTarget, 0),
        posTarget := s.posValue + (s.widthTarget, 0) + (s.widthTarget, 0),
        widthValue := -s.widthValue,
        widthTarget := s.widthValue,
        notBlinkingValue := s.notBlinkingValue,
        notBlinkingTarget := if s.widthValue = 0 then 0 else 1,
        startTime := now } := by
  simp [flipSides, step, neg_eq_zero]

/-! ## Claim theorems: the network and `flip_sides` -/

/-- C5: every `set_position_target` input event resets the blink `start_time`
to the current clock time (line 223 fires
`reset_blinking_animation_to_current_time` on each such event). -/
theorem set_position_target_resets_blink (now : ℚ) (s : SelState) (p : ℚ × ℚ) :
    (step now s (Event.setPositionTarget p)).startTime = now := rfl

/-- C6: after `set_width(0)` followed by `set_position_target((10,10))` from a
fresh component, `not_blinking.target` equals 0, `start_time` is reset to the
time `t2` of the position event, and immediately afterwards (reading the shape
at clock `t2`) the alpha equals `CURSOR_ALPHA`. -/
theorem width_zero_then_move (t1 t2 : ℚ) :
    ((step t2 (step t1 initState (Event.setWidth 0))
        (Event.setPositionTarget (10, 10))).notBlinkingTarget = 0)
    ∧ ((step t2 (step t1 initState (Event.setWidth 0))
        (Event.setPositionTarget (10, 10))).startTime = t2)
    ∧ shapeAlpha t2
        (step t2 (step t1 initState (Event.setWidth 0))
          (Event.setPositionTarget (10, 10))).startTime
        (step t2 (step t1 initState (Event.setWidth 0))
          (Event.setPositionTarget (10, 10))).notBlinkingValue
        = CURSOR_ALPHA := by
  refine ⟨rfl, rfl, ?_⟩
  show shapeAlpha t2 t2 0 = CURSOR_ALPHA
  rw [shapeAlpha, glslMix, blinkingAlpha_self]
  ring

/-- C10: every `flip_sides` call resets the blink `start_time` to the current
clock time as a side effect, because it issues `set_position_target` events —
exactly two of them. -/
theorem flip_sides_blink_side_effect (now : ℚ) (s : SelState) :
    (flipSides now s).1.startTime = now
    ∧ List.countP isSetPositionTarget (flipSides now s).2 = 2 :=
  ⟨rfl, rfl⟩

/-- C2 counterexample: `flip_sides` does not execute the claimed protocol.
Step (1) of the code reads `width_target`, not the animated width: on a state
with animated width 1 but width target 2 the code and the claimed protocol
produce different states. -/
theorem flip_sides_protocol_cex :
    (flipSidesClaimed 0 (⟨(0, 0), (0, 0), 1, 2, 0, 0, 0⟩ : SelState)).1
      ≠ (flipSides 0 (⟨(0, 0), (0, 0), 1, 2, 0, 0, 0⟩ : SelState)).1 := by
  norm_num [flipSides, flipSidesClaimed, step, SelState.mk.injEq, Prod.mk.injEq]

/-- C2 (amended): `flip_sides` executes the four-step protocol in order, but
step (1) reads `w` from `width_target` (the last commanded width target), not
from the animated width; only `p` is the animated position. The emitted event
sequence and the resulting state are exactly: shift the position target to
`p + (w, 0)` and snap, shift it again to `p + (2w, 0)`, then set the width
target to the negated animated width, snap, and set it to the negation of the
(just overwritten) width target, i.e. back to the old animated width. -/
theorem flip_sides_actual_steps (now : ℚ) (s : SelState) :
    (flipSides now s).1 =
      { posValue := s.posValue + (s.widthTarget, 0),
        posTarget := s.posValue + (2 * s.widthTarget, 0),
        widthValue := -s.widthValue,
        widthTarget := s.widthValue,
        notBlinkingValue := s.notBlinkingValue,
        notBlinkingTarget := if s.widthValue = 0 then 0 else 1,
        startTime := now }
    ∧ (flipSides now s).2 =
      [Event.setPositionTarget (s.posValue + (s.widthTarget, 0)),
       Event.skipPositionAnimation,
       Event.setPositionTarget (s.posValue + (2 * s.widthTarget, 0)),
       Event.setWidth (-s.widthValue),
       Event.skipWidthAnimation,
       Event.setWidth s.widthValue] := by
  have h2 : s.posValue + (s.widthTarget, 0) + (s.widthTarget, 0)
      = s.posValue + (2 * s.widthTarget, 0) := by
    rw [Prod.ext_iff]
    refine ⟨?_, ?_⟩
    · simp
      ring
    · simp
  constructor
  · rw [flipSides_run, h2]
  · simp only [flipSides, step, neg_neg]
    rw [h2]

/-- C1 counterexample: `flip_sides` is not an involution on the animation
targets, and the rendered interval is not preserved when the width animation is
in flight. From the settled state `posValue = posTarget = (0,0)`,
`widthValue = widthTarget = 1`, two calls leave `position_target = (3, 0)` and
`width_target = -1`; from `widthValue = 1`, `widthTarget = 2`, a single call
moves the absolute span from `[0, 1]` to `[1, 2]`. -/
theorem flip_sides_involution_cex :
    (flipSides 0 (flipSides 0 (⟨(0, 0), (0, 0), 1, 1, 0, 0, 0⟩ : SelState)).1).1.posTarget
      ≠ (0, 0)
    ∧ (flipSides 0 (flipSides 0 (⟨(0, 0), (0, 0), 1, 1, 0, 0, 0⟩ : SelState)).1).1.widthTarget
      ≠ 1
    ∧ absoluteSpan (flipSides 0 (⟨(0, 0), (0, 0), 1, 2, 0, 0, 0⟩ : SelState)).1
      ≠ absoluteSpan (⟨(0, 0), (0, 0), 1, 2, 0, 0, 0⟩ : SelState) := by
  norm_num [flipSides, step, absoluteSpan, Prod.mk.injEq, min_def, max_def]

/-- C1 (amended): when the width animation is settled
(`width_target = widthValue`), a single `flip_sides` call leaves the absolute
rendered interval (normalized span of `[x, x + width]` over the animated
signals) unchanged, and a second call restores the animated width value; but
`flip_sides` is not an involution on the targets: two calls leave
`position_target = posValue + (3w, 0)` and `width_target = -w`. -/
theorem flip_sides_span_preserved (s : SelState) (now now2 : ℚ)
    (hw : s.widthTarget = s.widthValue) :
    absoluteSpan (flipSides now s).1 = absoluteSpan s
    ∧ (flipSides now2 (flipSides now s).1).1.widthValue = s.widthValue
    ∧ (flipSides now2 (flipSides now s).1).1.posTarget
        = s.posValue + (3 * s.widthValue, 0)
    ∧ (flipSides now2 (flipSides now s).1).1.widthTarget = -s.widthValue := by
  refine ⟨?_, ?_, ?_, ?_⟩
  · simp only [flipSides_run, absoluteSpan, hw, Prod.fst_add]
    rw [Prod.mk.injEq]
    constructor
    · rw [show s.posValue.1 + ((s.widthValue : ℚ), (0 : ℚ)).1 + -s.widthValue
            = s.posValue.1 by simp, min_comm]
    · rw [show s.posValue.1 + ((s.widthValue : ℚ), (0 : ℚ)).1 + -s.widthValue
            = s.posValue.1 by simp, max_comm]
  · simp [flipSides_run]
  · simp only [flipSides_run, hw]
    rw [Prod.ext_iff]
    refine ⟨?_, ?_⟩
    · simp
      ring
    · simp
  · simp [flipSides_run]

/-- Witness for `flip_sides_span_preserved` at the settled state
`posValue = posTarget = (5, 0)`, `widthValue = widthTarget = 2`. -/
theorem flip_sides_span_preserved_witness :
    absoluteSpan (flipSides 0 (⟨(5, 0), (5, 0), 2, 2, 0, 0, 0⟩ : SelState)).1
        = absoluteSpan (⟨(5, 0), (5, 0), 2, 2, 0, 0, 0⟩ : SelState)
    ∧ (flipSides 0 (flipSides 0 (⟨(5, 0), (5, 0), 2, 2, 0, 0, 0⟩ : SelState)).1).1.widthValue
        = (⟨(5, 0), (5, 0), 2, 2, 0, 0, 0⟩ : SelState).widthValue
    ∧ (flipSides 0 (flipSides 0 (⟨(5, 0), (5, 0), 2, 2, 0, 0, 0⟩ : SelState)).1).1.posTarget
        = (⟨(5, 0), (5, 0), 2, 2, 0, 0, 0⟩ : SelState).posValue
          + (3 * (⟨(5, 0), (5, 0), 2, 2, 0, 0, 0⟩ : SelState).widthValue, 0)
    ∧ (flipSides 0 (flipSides 0 (⟨(5, 0), (5, 0), 2, 2, 0, 0, 0⟩ : SelState)).1).1.widthTarget
        = -(⟨(5, 0), (5, 0), 2, 2, 0, 0, 0⟩ : SelState).widthValue :=
  flip_sides_span_preserved ⟨(5, 0), (5, 0), 2, 2, 0, 0, 0⟩ 0 0 rfl

/-- C9: the `right_side_of_last_attached_glyph` output resolves the last
reference of the attached-glyph list: on an empty list it is the neutral
default 0; if the last reference resolves to `g`, it is the controller's
absolute position (`display_object.x + right_side.x`) plus the glyph's local
position and horizontal advance; if the last reference is a stale weak
reference, it is 0 — a total function, so propagation continues without
error. -/
theorem rhs_last_glyph_cases :
    (∀ dX rX : ℚ, rhsLastGlyph dX rX [] = 0)
    ∧ (∀ (dX rX : ℚ) (gs : List (Option Glyph)) (g : Glyph),
        gs.getLast? = some (some g) →
          rhsLastGlyph dX rX gs = (dX + rX) + (g.positionX + g.xAdvance))
    ∧ (∀ (dX rX : ℚ) (gs : List (Option Glyph)),
        gs.getLast? = some none → rhsLastGlyph dX rX gs = 0) := by
  refine ⟨fun dX rX => rfl, fun dX rX gs g h => ?_, fun dX rX gs h => ?_⟩
  · simp only [rhsLastGlyph, h, Option.bind]
  · simp only [rhsLastGlyph, h, Option.bind]

/-- Witness for `rhs_last_glyph_cases`: the empty list, a resolvable last
reference, and a stale last reference, at concrete positions. -/
theorem rhs_last_glyph_cases_witness :
    rhsLastGlyph 1 2 [] = 0
    ∧ rhsLastGlyph 1 2 [none, some ⟨3, 4⟩] = 10
    ∧ rhsLastGlyph 1 2 [some ⟨3, 4⟩, none] = 0 := by
  refine ⟨rhs_last_glyph_cases.1 1 2, ?_, ?_⟩
  · rw [rhs_last_glyph_cases.2.1 1 2 [none, some ⟨3, 4⟩] ⟨3, 4⟩ rfl]
    norm_num
  · rw [rhs_last_glyph_cases.2.2 1 2 [some ⟨3, 4⟩, none] rfl]

end EnsoSelection
